import Mathlib

/-!
Verification of the sandbox lifecycle and pooling subsystem of JoySafeter
(`backend/app/services/sandbox_pool.py` and
`backend/app/services/sandbox_manager.py`), shallowly embedded in Lean 4.

The Python `dict` backing the pool is modelled as an association list with
Python-dict semantics: assignment to an existing key replaces the entry in
place (keeping its position), assignment to a fresh key appends, and `pop`
removes the entry.  `time.time()` is modelled by an explicit `now : Nat`
argument to every operation that reads the clock.  Closing an adapter
(`_close_adapter`, which calls `cleanup`/`stop` and swallows errors) is
modelled by recording the adapter's identity in a list of performed close
calls; adapters themselves are identified by `Nat`.  `active_count` is an
`Int`, as Python integers are signed: its non-negativity is a theorem, not
a typing artifact.
-/

namespace JoySafeter

/-- `PoolEntry` from `sandbox_pool.py`: adapter handle, `last_used`
timestamp, `active_count` reference count (initialised to 0 in
`__init__`; `put` sets it to 1 after construction). -/
structure PoolEntry where
  adapter : Nat
  last_used : Nat
  active_count : Int
deriving Repr, DecidableEq

/-- `SandboxPool.__init__`: the registry dict, `_max_size`,
`_idle_timeout` and the `_shutdown` flag.  The `asyncio.Lock` serialises
each operation; operations are therefore modelled as atomic state
transformers. -/
structure SandboxPool where
  pool : List (String × PoolEntry)
  max_size : Nat
  idle_timeout : Nat
  is_shutdown : Bool
deriving Repr, DecidableEq

/-- Python `dict.get` on the registry. -/
def dictGet (m : List (String × PoolEntry)) (k : String) : Option PoolEntry :=
  (m.find? (fun se => se.1 == k)).map (·.2)

/-- Python `d[k] = v`: replace in place when the key exists, append
otherwise. -/
def dictSet (m : List (String × PoolEntry)) (k : String) (v : PoolEntry) :
    List (String × PoolEntry) :=
  if m.any (fun se => se.1 == k) then
    m.map (fun se => if se.1 == k then (k, v) else se)
  else
    m ++ [(k, v)]

/-- Python `d.pop(k)` (the removal part; the looked-up value is taken via
`dictGet` at call sites). -/
def dictPop (m : List (String × PoolEntry)) (k : String) :
    List (String × PoolEntry) :=
  m.filter (fun se => se.1 != k)

/-- `SandboxPool.get`: under the lock — if shut down return `None`;
otherwise look the id up, and on a hit refresh `last_used`, bump
`active_count` and return the adapter. -/
def SandboxPool.get (p : SandboxPool) (now : Nat) (sid : String) :
    Option Nat × SandboxPool :=
  if p.is_shutdown then (none, p)
  else
    match dictGet p.pool sid with
    | some e =>
        let e1 := { e with last_used := now, active_count := e.active_count + 1 }
        (some e.adapter, { p with pool := dictSet p.pool sid e1 })
    | none => (none, p)

/-- The fold step of `_evict_lru`'s scan: carry the best
`(lru_sid, lru_time)` so far; an entry competes only when
`active_count == 0`, and wins on strictly smaller `last_used`
(`lru_time` starts at `inf`, modelled by the `none` accumulator). -/
def lruStep (acc : Option (String × Nat)) (se : String × PoolEntry) :
    Option (String × Nat) :=
  if se.2.active_count = 0 then
    match acc with
    | none => some (se.1, se.2.last_used)
    | some (s, t) =>
        if se.2.last_used < t then some (se.1, se.2.last_used) else some (s, t)
  else acc

/-- `SandboxPool._evict_lru`: pick the zero-reference entry with the
smallest `last_used` (first wins ties, by the strict comparison), pop it
and close its adapter; do nothing when no entry is eligible. -/
def SandboxPool.evict_lru (p : SandboxPool) : SandboxPool × List Nat :=
  match p.pool.foldl lruStep none with
  | none => (p, [])
  | some (sid, _) =>
      match dictGet p.pool sid with
      | some e => ({ p with pool := dictPop p.pool sid }, [e.adapter])
      | none => (p, [])

/-- `SandboxPool.put`: when shut down, close the offered adapter at once;
otherwise evict one LRU entry if at or above capacity, close the old
adapter when the id is already present, and store a fresh entry with
`active_count = 1` and `last_used = now`.  Returns the new pool state and
the close calls performed, in order. -/
def SandboxPool.put (p : SandboxPool) (now : Nat) (sid : String)
    (adapter : Nat) : SandboxPool × List Nat :=
  if p.is_shutdown then (p, [adapter])
  else
    let step1 := if p.pool.length ≥ p.max_size then p.evict_lru else (p, [])
    let p1 := step1.1
    let closedOld :=
      match dictGet p1.pool sid with
      | some old => [old.adapter]
      | none => []
    ({ p1 with pool := dictSet p1.pool sid ⟨adapter, now, 1⟩ },
     step1.2 ++ closedOld)

/-- `SandboxPool.release`: decrement `active_count` flooring at zero and
refresh `last_used`; a miss is a no-op. -/
def SandboxPool.release (p : SandboxPool) (now : Nat) (sid : String) :
    SandboxPool :=
  match dictGet p.pool sid with
  | some e =>
      let e1 := { e with active_count := max 0 (e.active_count - 1), last_used := now }
      { p with pool := dictSet p.pool sid e1 }
  | none => p

/-- `SandboxPool.remove`: pop the entry if present and close its adapter
(outside the lock in the source; the close happens exactly once either
way). -/
def SandboxPool.remove (p : SandboxPool) (sid : String) :
    SandboxPool × List Nat :=
  match dictGet p.pool sid with
  | some e => ({ p with pool := dictPop p.pool sid }, [e.adapter])
  | none => (p, [])

/-- The idle test of `cleanup_idle`'s first pass:
`active_count == 0 and (now - last_used) > idle_timeout`. -/
def idleEvictable (now timeout : Nat) (e : PoolEntry) : Bool :=
  e.active_count == 0 && timeout < now - e.last_used

/-- `SandboxPool.cleanup_idle`, second pass: pop each identified id in
turn and close its adapter, in order. -/
def popMany (m : List (String × PoolEntry)) :
    List String → List (String × PoolEntry) × List Nat
  | [] => (m, [])
  | sid :: rest =>
      match dictGet m sid with
      | some e =>
          let r := popMany (dictPop m sid) rest
          (r.1, e.adapter :: r.2)
      | none => popMany m rest

/-- `SandboxPool.cleanup_idle`: first pass collects, in iteration order,
every id whose entry is idle (`active_count == 0` and past the timeout);
the second pass pops each and closes its adapter.  Returns the new pool,
the evicted ids, and the close calls. -/
def SandboxPool.cleanup_idle (p : SandboxPool) (now : Nat) :
    SandboxPool × List String × List Nat :=
  let to_remove :=
    (p.pool.filter (fun se => idleEvictable now p.idle_timeout se.2)).map
      Prod.fst
  let second := popMany p.pool to_remove
  ({ p with pool := second.1 }, to_remove, second.2)

/-- `SandboxPool.shutdown`: set the `_shutdown` flag, clear the registry,
and close every previously held adapter. -/
def SandboxPool.shutdown (p : SandboxPool) : SandboxPool × List Nat :=
  ({ pool := [], max_size := p.max_size, idle_timeout := p.idle_timeout,
     is_shutdown := true },
   p.pool.map (·.2.adapter))

/-!
Manager embedding (`sandbox_manager.py`).  The database is a list of
`UserSandbox` rows; SQLAlchemy `update ... where id == sid` maps over the
rows, and `rowcount` is the number of matched rows.  The
`PydanticSandboxAdapter` constructor (which starts the container) and the
handle's `is_started` liveness check are the external runtime adapter,
modelled by an `AdapterEnv`; each constructor call is logged in `started`.
Only the adapter construction is fallible in the model, which is the
failure the spec's error taxonomy describes (`CreationFailed`); datetime
stamps are the explicit `now` argument.
-/

/-- `UserSandbox` row (`models/user_sandbox.py`): the lifecycle columns.
(`created_at`/`updated_at` live in a `TimestampMixin` outside the
subsystem; resource-limit columns are inert configuration here.) -/
structure SandboxRecord where
  id : String
  user_id : String
  container_id : Option String
  status : String
  image : String
  last_active_at : Option Nat
  error_message : Option String
  idle_timeout : Nat
deriving Repr, DecidableEq

/-- Manager-visible world: the durable rows, the module-level
`_sandbox_pool`, and the logs of adapter close calls and adapter start
(constructor) calls, in order. -/
structure MgrState where
  db : List SandboxRecord
  pool : SandboxPool
  closed : List Nat
  started : List Nat
deriving Repr, DecidableEq

/-- The container-runtime adapter capability: handle liveness
(`adapter.is_started()`) and the outcome of constructing
`PydanticSandboxAdapter` (which starts the container): an exception
message or a fresh handle. -/
structure AdapterEnv where
  is_started : Nat → Bool
  start : Except String Nat

/-- The typed error `ensure_sandbox_running` raises:
`HTTPException(503, detail=...)`. -/
inductive MgrError where
  | serviceUnavailable (detail : String)
deriving Repr, DecidableEq

/-- `SandboxManagerService._update_status`: set `status`, stamp
`last_active_at`; write `container_id` only when given; write
`error_message` when given, clear it when the new status is `running`,
leave it untouched otherwise. -/
def updateStatusDb (db : List SandboxRecord) (sid : String) (st : String)
    (container_id : Option String) (error_message : Option String)
    (now : Nat) : List SandboxRecord :=
  db.map fun r =>
    if r.id == sid then
      { r with
        status := st
        last_active_at := some now
        container_id := if container_id.isSome then container_id else r.container_id
        error_message :=
          if error_message.isSome then error_message
          else if st == "running" then none
          else r.error_message }
    else r

/-- `SandboxManagerService._update_last_active`. -/
def updateLastActiveDb (db : List SandboxRecord) (sid : String) (now : Nat) :
    List SandboxRecord :=
  db.map fun r =>
    if r.id == sid then { r with last_active_at := some now } else r

/-- `get_user_sandbox_record`: select by `user_id`. -/
def findByUser (db : List SandboxRecord) (uid : String) :
    Option SandboxRecord :=
  db.find? (fun r => r.user_id == uid)

/-- `create_sandbox_record`: return the existing row if present, else
insert a fresh `pending` row with the default image/limits
(`constants.py`); `fresh_id` stands for `uuid.uuid4()`. -/
def create_sandbox_record (db : List SandboxRecord) (uid : String)
    (fresh_id : String) : SandboxRecord × List SandboxRecord :=
  match findByUser db uid with
  | some r => (r, db)
  | none =>
      let r : SandboxRecord :=
        { id := fresh_id, user_id := uid, container_id := none,
          status := "pending", image := "python:3.12-slim",
          last_active_at := none, error_message := none,
          idle_timeout := 3600 }
      (r, db ++ [r])

/-- Steps 3–5 of `ensure_sandbox_running`: mark `creating`, construct the
adapter (the start call), register it in the pool, mark `running`
(clearing `error_message`); on a start exception mark `failed` with the
message and raise the typed 503. -/
def startSandbox (env : AdapterEnv) (st : MgrState) (rid : String)
    (now : Nat) : Except MgrError Nat × MgrState :=
  let db1 := updateStatusDb st.db rid "creating" none none now
  match env.start with
  | .error e =>
      let db2 := updateStatusDb db1 rid "failed" none (some e) now
      (.error (.serviceUnavailable ("Failed to start sandbox: " ++ e)),
       { st with db := db2 })
  | .ok a =>
      let step := st.pool.put now rid a
      let db2 := updateStatusDb db1 rid "running" none none now
      (.ok a,
       { db := db2, pool := step.1, closed := st.closed ++ step.2,
         started := st.started ++ [a] })

/-- `ensure_sandbox_running` (sequential run of one caller): load or
create the record; try the pool, and on a hit check liveness — live
handles are returned after touching `last_active_at`, dead ones are
removed from the pool before falling through to creation. -/
def ensure_sandbox_running (env : AdapterEnv) (fresh_id : String)
    (st : MgrState) (uid : String) (now : Nat) :
    Except MgrError Nat × MgrState :=
  let rec0 := create_sandbox_record st.db uid fresh_id
  let record := rec0.1
  let st0 := { st with db := rec0.2 }
  let got := st0.pool.get now record.id
  let st1 := { st0 with pool := got.2 }
  match got.1 with
  | some a =>
      if env.is_started a then
        (.ok a, { st1 with db := updateLastActiveDb st1.db record.id now })
      else
        let rem := st1.pool.remove record.id
        startSandbox env
          { st1 with pool := rem.1, closed := st1.closed ++ rem.2 }
          record.id now
  | none => startSandbox env st1 record.id now

/-- `stop_sandbox`: remove from the pool (closing the handle if one was
held), then `update ... set status='stopped', last_active_at=now where
id = sid`; the result is `rowcount > 0`. -/
def stop_sandbox (st : MgrState) (sid : String) (now : Nat) :
    Bool × MgrState :=
  let rem := st.pool.remove sid
  let matched := st.db.countP (fun r => r.id == sid)
  let db1 := st.db.map fun r =>
    if r.id == sid then
      { r with status := "stopped", last_active_at := some now }
    else r
  (decide (0 < matched),
   { st with db := db1, pool := rem.1, closed := st.closed ++ rem.2 })

/-- `cleanup_idle_sandboxes`: sweep the pool, then (when anything was
evicted) one batch `update ... set status='stopped' where id in evicted`;
returns the number evicted.  Note the batch update writes only `status`. -/
def cleanup_idle_sandboxes (st : MgrState) (now : Nat) : Nat × MgrState :=
  let swept := st.pool.cleanup_idle now
  let evicted := swept.2.1
  let db1 :=
    if evicted.isEmpty then st.db
    else st.db.map fun r =>
      if evicted.contains r.id then { r with status := "stopped" } else r
  (evicted.length,
   { st with db := db1, pool := swept.1, closed := st.closed ++ swept.2.2 })

/-!
Operation sequences on the pool, for invariants quantified over "every
sequence of acquire/release/register/..." — each constructor is one
lock-serialized pool call with its clock reading.
-/

/-- One serialized pool operation. -/
inductive PoolOp where
  | get (now : Nat) (sid : String)
  | put (now : Nat) (sid : String) (adapter : Nat)
  | release (now : Nat) (sid : String)
  | remove (sid : String)
  | cleanup (now : Nat)
  | shutdown
deriving Repr, DecidableEq

/-- Apply one pool operation (state part). -/
def applyOp (p : SandboxPool) (op : PoolOp) : SandboxPool :=
  match op with
  | .get now sid => (p.get now sid).2
  | .put now sid a => (p.put now sid a).1
  | .release now sid => p.release now sid
  | .remove sid => (p.remove sid).1
  | .cleanup now => (p.cleanup_idle now).1
  | .shutdown => p.shutdown.1

/-- Run a sequence of pool operations. -/
def runOps (p : SandboxPool) (ops : List PoolOp) : SandboxPool :=
  ops.foldl applyOp p

/-- `SandboxPool.__init__`: an empty, open registry. -/
def freshPool (max_size idle_timeout : Nat) : SandboxPool :=
  { pool := [], max_size := max_size, idle_timeout := idle_timeout,
    is_shutdown := false }

/-!
Two concurrent `ensure_sandbox_running` callers for the same user,
modelled as interleaved atomic segments.  Segment boundaries are the
`await` points of the source (record-store reads/writes, `pool.get`,
`pool.remove`, `pool.put` — each atomic under the pool's `asyncio.Lock`);
`adapter.is_started()` and the `PydanticSandboxAdapter(...)` construction
are synchronous and belong to the segment that follows the preceding
await.  The source has no per-id creation gate, so nothing else
serializes the callers between the pool miss and the registration.
A schedule is the list of which caller runs its next segment.
-/

/-- Program counter of one `ensure_sandbox_running` caller (the record
already exists, so the create-record branch is not entered). -/
inductive CallerPC where
  | loadRecord
  | poolGet
  | liveTouch (a : Nat)
  | staleRemove
  | updCreating
  | construct
  | poolPut
  | updRunning
  | finished (r : Except MgrError Nat)
deriving Repr

/-- Whether a caller has returned. -/
def CallerPC.isFinished : CallerPC → Bool
  | .finished _ => true
  | _ => false

/-- One caller: its program counter and the handle its adapter
construction would yield. -/
structure Caller where
  pc : CallerPC
  myAdapter : Nat
deriving Repr

/-- Shared world of the interleaved run: manager state, a logical clock
ticking once per segment, and the two callers. -/
structure ConcState where
  st : MgrState
  clock : Nat
  ca : Caller
  cb : Caller
deriving Repr

/-- Run one atomic segment of a caller against the shared state. -/
def stepCaller (is_started : Nat → Bool) (rid : String) (now : Nat)
    (st : MgrState) (c : Caller) : MgrState × Caller :=
  match c.pc with
  | .loadRecord => (st, { c with pc := .poolGet })
  | .poolGet =>
      let got := st.pool.get now rid
      let st1 := { st with pool := got.2 }
      match got.1 with
      | none => (st1, { c with pc := .updCreating })
      | some a =>
          if is_started a then (st1, { c with pc := .liveTouch a })
          else (st1, { c with pc := .staleRemove })
  | .liveTouch a =>
      ({ st with db := updateLastActiveDb st.db rid now },
       { c with pc := .finished (.ok a) })
  | .staleRemove =>
      let rem := st.pool.remove rid
      ({ st with pool := rem.1, closed := st.closed ++ rem.2 },
       { c with pc := .updCreating })
  | .updCreating =>
      ({ st with db := updateStatusDb st.db rid "creating" none none now },
       { c with pc := .construct })
  | .construct =>
      ({ st with started := st.started ++ [c.myAdapter] },
       { c with pc := .poolPut })
  | .poolPut =>
      let step := st.pool.put now rid c.myAdapter
      ({ st with pool := step.1, closed := st.closed ++ step.2 },
       { c with pc := .updRunning })
  | .updRunning =>
      ({ st with db := updateStatusDb st.db rid "running" none none now },
       { c with pc := .finished (.ok c.myAdapter) })
  | .finished _ => (st, c)

/-- Run an interleaving: `false` schedules caller A's next segment,
`true` caller B's; the clock ticks once per scheduled segment. -/
def runSched (is_started : Nat → Bool) (rid : String) (s : ConcState)
    (sched : List Bool) : ConcState :=
  sched.foldl
    (fun s b =>
      if b then
        let r := stepCaller is_started rid s.clock s.st s.cb
        { st := r.1, clock := s.clock + 1, ca := s.ca, cb := r.2 }
      else
        let r := stepCaller is_started rid s.clock s.st s.ca
        { st := r.1, clock := s.clock + 1, ca := r.2, cb := s.cb })
    s

/-!
Concrete scenario inputs used by the theorems below.
-/

/-- The registration scenario of the capacity/LRU property: for each
`(t, sid, a)` in turn, `put` at time `t` then `release` at time `t` — a
registered-then-unreferenced (zero-`active_count`) entry.  Collects every
close call. -/
def registerAll (p : SandboxPool) :
    List (Nat × String × Nat) → SandboxPool × List Nat
  | [] => (p, [])
  | r :: rest =>
      let step := p.put r.1 r.2.1 r.2.2
      let p1 := step.1.release r.1 r.2.1
      let tail := registerAll p1 rest
      (tail.1, step.2 ++ tail.2)

/-- The pool entry a completed `put`+`release` pair leaves behind:
`active_count = 0`, `last_used` = the registration time. -/
def entry0 (r : Nat × String × Nat) : String × PoolEntry :=
  (r.2.1, ⟨r.2.2, r.1, 0⟩)

/-- A pending sandbox record for user `u1`. -/
def recR1 : SandboxRecord :=
  { id := "r1", user_id := "u1", container_id := none, status := "pending",
    image := "python:3.12-slim", last_active_at := none,
    error_message := none, idle_timeout := 3600 }

/-- Initial world for the two-caller race: the record exists, the pool is
fresh and empty, caller A's construction would yield handle 100, caller
B's handle 101. -/
def c1Init : ConcState :=
  { st := { db := [recR1], pool := freshPool 100 3600, closed := [],
            started := [] },
    clock := 0,
    ca := { pc := .loadRecord, myAdapter := 100 },
    cb := { pc := .loadRecord, myAdapter := 101 } }

/-- The racing interleaving: A and B each load the record and miss the
pool before either starts creating; then each runs its creation sequence
to completion. -/
def c1Sched : List Bool :=
  [false, false, true, true, false, false, false, false,
   true, true, true, true]

/-- A world whose only record is already `stopped` and whose pool is
empty. -/
def stStopped : MgrState :=
  { db := [{ recR1 with status := "stopped" }], pool := freshPool 100 3600,
    closed := [], started := [] }

/-- A world with a pending record and an empty pool (creation path). -/
def stMiss : MgrState :=
  { db := [recR1], pool := freshPool 100 3600, closed := [], started := [] }

/-- A world where the pool holds handle 9 for `r1` (a stale handle in the
self-healing scenario). -/
def stStale : MgrState :=
  { db := [recR1],
    pool := { pool := [("r1", ⟨9, 0, 1⟩)], max_size := 100,
              idle_timeout := 3600, is_shutdown := false },
    closed := [], started := [] }

/-- Three running sandboxes, all pooled with zero references and
`last_used = 0`, idle timeout 10 — all idle at `now = 100`. -/
def stIdle3 : MgrState :=
  let mk := fun (i : String) (u : String) =>
    { recR1 with id := i, user_id := u, status := "running", last_active_at := some 5 }
  { db := [mk "x" "u1", mk "y" "u2", mk "z" "u3"],
    pool := { pool := [("x", ⟨1, 0, 0⟩), ("y", ⟨2, 0, 0⟩), ("z", ⟨3, 0, 0⟩)],
              max_size := 100, idle_timeout := 10, is_shutdown := false },
    closed := [], started := [] }

/-! Claim theorems. -/

/-- C1: two concurrent `ensure_sandbox_running` callers for the same
user, both missing the pool before either registers, each invoke the
runtime adapter: after the interleaving `c1Sched` both callers have
returned successfully, yet two adapter start calls were made — the claim
demands exactly one.  Exactly one handle remains registered (the second
`put` closed the first caller's handle), so the start-call half of the
claim is what the code violates: 'ensure_sandbox_running` has no per-id
creation gate. -/
theorem ensure_running_race_double_start :
    (runSched (fun _ => true) "r1" c1Init c1Sched).ca.pc.isFinished = true ∧
    (runSched (fun _ => true) "r1" c1Init c1Sched).cb.pc.isFinished = true ∧
    (runSched (fun _ => true) "r1" c1Init c1Sched).st.started = [100, 101] ∧
    (runSched (fun _ => true) "r1" c1Init c1Sched).st.started.length ≠ 1 ∧
    (runSched (fun _ => true) "r1" c1Init c1Sched).st.pool.pool.length = 1 ∧
    (runSched (fun _ => true) "r1" c1Init c1Sched).st.closed = [100] := by
  decide

/-- C6 counterexample: `stop_sandbox` on a record that already has status
`stopped` (and no pool entry) returns `true`, because the SQL UPDATE still
matches the row — the claim says it returns `false`.  (No adapter call is
made: `closed` stays empty.) -/
theorem stop_already_stopped_returns_true :
    (stStopped.db.map (fun r => (r.id, r.status)) = [("r1", "stopped")]) ∧
    (stop_sandbox stStopped "r1" 5).1 = true ∧
    (stop_sandbox stStopped "r1" 5).2.closed = [] := by
  decide

/-- C8 counterexample: the batch update of `cleanup_idle_sandboxes` is a
status transition (`running` → `stopped` for x, y, z) that does not stamp
`last_active_at`: all three records keep `some 5` instead of being
stamped with the sweep time 100. -/
theorem cleanup_batch_does_not_stamp_last_active :
    (cleanup_idle_sandboxes stIdle3 100).1 = 3 ∧
    (cleanup_idle_sandboxes stIdle3 100).2.db.map (·.status) =
      ["stopped", "stopped", "stopped"] ∧
    (cleanup_idle_sandboxes stIdle3 100).2.db.map (·.last_active_at) =
      [some 5, some 5, some 5] := by
  decide

/-! Association-list (Python dict) helper lemmas. -/


theorem dictGet_fresh (m : List (String × PoolEntry)) (k : String)
    (h : ∀ se ∈ m, se.1 ≠ k) : dictGet m k = none := by
  unfold dictGet
  rw [List.find?_eq_none.mpr]
  · rfl
  · intro se hse
    simpa using h se hse

theorem dictGet_mem (m : List (String × PoolEntry)) (k : String)
    (e : PoolEntry) (h : dictGet m k = some e) : (k, e) ∈ m := by
  unfold dictGet at h
  cases hf : m.find? (fun se => se.1 == k) with
  | none => rw [hf] at h; simp at h
  | some se =>
    rw [hf] at h
    simp at h
    have hp := List.find?_some hf
    have hm := List.mem_of_find?_eq_some hf
    obtain ⟨a, b⟩ := se
    simp at hp h
    subst hp
    exact h ▸ hm

theorem dictGet_append_fresh (m : List (String × PoolEntry)) (k : String)
    (v : PoolEntry) (h : ∀ se ∈ m, se.1 ≠ k) :
    dictGet (m ++ [(k, v)]) k = some v := by
  unfold dictGet
  induction m with
  | nil => simp
  | cons hd tl ih =>
    have hhd : ¬(hd.1 == k) = true := by
      simpa using h hd (by simp)
    have hhd' : (hd.1 == k) = false := by simpa using hhd
    simp only [List.cons_append, List.find?, hhd']
    exact ih (fun se hse => h se (by simp [hse]))

theorem dictSet_fresh (m : List (String × PoolEntry)) (k : String)
    (v : PoolEntry) (h : ∀ se ∈ m, se.1 ≠ k) :
    dictSet m k v = m ++ [(k, v)] := by
  unfold dictSet
  have hc : ¬((m.any fun se => se.1 == k) = true) := by
    simp only [List.any_eq_true]
    rintro ⟨se, hse, hk⟩
    exact h se hse (by simpa using hk)
  rw [if_neg hc]

theorem dictSet_map_untouched (m : List (String × PoolEntry)) (k : String)
    (w : PoolEntry) (h : ∀ se ∈ m, se.1 ≠ k) :
    (m.map fun se => if se.1 == k then (k, w) else se) = m := by
  induction m with
  | nil => rfl
  | cons hd tl ih =>
    have hhd : ¬(hd.1 == k) = true := by simpa using h hd (by simp)
    simp only [List.map_cons, if_neg hhd]
    rw [ih (fun se hse => h se (by simp [hse]))]

theorem dictSet_append_replace (m : List (String × PoolEntry)) (k : String)
    (v w : PoolEntry) (h : ∀ se ∈ m, se.1 ≠ k) :
    dictSet (m ++ [(k, v)]) k w = m ++ [(k, w)] := by
  unfold dictSet
  rw [if_pos (by simp)]
  rw [List.map_append]
  rw [dictSet_map_untouched m k w h]
  simp

theorem dictGet_map_replace (m : List (String × PoolEntry)) (k : String)
    (v : PoolEntry) (h : (m.any fun se => se.1 == k) = true) :
    dictGet (m.map fun se => if se.1 == k then (k, v) else se) k = some v := by
  induction m with
  | nil => simp at h
  | cons hd tl ih =>
    by_cases hk : (hd.1 == k) = true
    · simp only [List.map_cons, if_pos hk]
      unfold dictGet
      simp [List.find?]
    · have hk' : (hd.1 == k) = false := by simpa using hk
      simp only [List.map_cons, if_neg hk]
      unfold dictGet
      simp only [List.find?, hk']
      apply ih
      simp only [List.any_cons, hk, Bool.false_or] at h
      exact h

theorem dictGet_dictSet_self (m : List (String × PoolEntry)) (k : String)
    (v : PoolEntry) : dictGet (dictSet m k v) k = some v := by
  unfold dictSet
  by_cases hc : (m.any fun se => se.1 == k) = true
  · rw [if_pos hc]
    exact dictGet_map_replace m k v hc
  · rw [if_neg hc]
    apply dictGet_append_fresh
    intro se hse hk
    exact hc (List.any_eq_true.mpr ⟨se, hse, by simp [hk]⟩)

theorem dictPop_fresh (m : List (String × PoolEntry)) (k : String)
    (h : ∀ se ∈ m, se.1 ≠ k) : dictPop m k = m := by
  unfold dictPop
  apply List.filter_eq_self.mpr
  intro se hse
  simpa using h se hse

theorem mem_dictSet (m : List (String × PoolEntry)) (k : String)
    (v : PoolEntry) (se : String × PoolEntry) (h : se ∈ dictSet m k v) :
    se ∈ m ∨ se = (k, v) := by
  unfold dictSet at h
  by_cases hc : (m.any fun x => x.1 == k) = true
  · rw [if_pos hc] at h
    rw [List.mem_map] at h
    obtain ⟨x, hx, hfx⟩ := h
    by_cases hk : (x.1 == k) = true
    · right; rw [if_pos hk] at hfx; exact hfx.symm
    · left; rw [if_neg hk] at hfx; rwa [← hfx]
  · rw [if_neg hc] at h
    rcases List.mem_append.mp h with h1 | h2
    · left; exact h1
    · right; simpa using h2

theorem mem_dictPop (m : List (String × PoolEntry)) (k : String)
    (se : String × PoolEntry) (h : se ∈ dictPop m k) : se ∈ m :=
  List.mem_of_mem_filter h


theorem dictGet_none_forall (m : List (String × PoolEntry)) (k : String)
    (h : dictGet m k = none) : ∀ se ∈ m, se.1 ≠ k := by
  intro se hse
  unfold dictGet at h
  cases hf : m.find? (fun se => se.1 == k) with
  | some x => rw [hf] at h; simp at h
  | none =>
    have := List.find?_eq_none.mp hf se hse
    simpa using this

theorem dictGet_cons_self (k : String) (v : PoolEntry)
    (tl : List (String × PoolEntry)) :
    dictGet ((k, v) :: tl) k = some v := by
  unfold dictGet
  simp [List.find?]

theorem dictPop_cons_self (k : String) (v : PoolEntry)
    (tl : List (String × PoolEntry)) (h : ∀ se ∈ tl, se.1 ≠ k) :
    dictPop ((k, v) :: tl) k = tl := by
  unfold dictPop
  simp only [List.filter_cons]
  rw [if_neg (by simp)]
  exact dictPop_fresh tl k h

theorem dictGet_dictPop_self (m : List (String × PoolEntry)) (k : String) :
    dictGet (dictPop m k) k = none := by
  apply dictGet_fresh
  intro se hse
  have := List.of_mem_filter hse
  simpa using this

theorem dictGet_dictPop_ne (m : List (String × PoolEntry)) (k k' : String)
    (h : k' ≠ k) : dictGet (dictPop m k) k' = dictGet m k' := by
  unfold dictGet dictPop
  induction m with
  | nil => rfl
  | cons hd tl ih =>
    by_cases hk : (hd.1 == k) = true
    · have h1 : hd.1 = k := by simpa using hk
      have hk' : (hd.1 == k') = false := by
        rw [h1]
        simp only [beq_eq_false_iff_ne, ne_eq]
        exact fun hc => h hc.symm
      simp only [List.filter_cons]
      rw [if_neg (by simp [h1])]
      simp only [List.find?, hk']
      exact ih
    · simp only [List.filter_cons]
      rw [if_pos (by simpa using hk)]
      by_cases hk2 : (hd.1 == k') = true
      · simp only [List.find?, hk2]
      · have hk2' : (hd.1 == k') = false := by simpa using hk2
        simp only [List.find?, hk2']
        exact ih

theorem dictGet_any (m : List (String × PoolEntry)) (k : String)
    (e : PoolEntry) (h : dictGet m k = some e) :
    (m.any fun se => se.1 == k) = true := by
  have := dictGet_mem m k e h
  exact List.any_eq_true.mpr ⟨(k, e), this, by simp⟩

theorem dictSet_length_of_mem (m : List (String × PoolEntry)) (k : String)
    (v : PoolEntry) (h : (m.any fun se => se.1 == k) = true) :
    (dictSet m k v).length = m.length := by
  unfold dictSet
  rw [if_pos h, List.length_map]

theorem dictPop_length_lt (m : List (String × PoolEntry)) (k : String)
    (e : PoolEntry) (h : dictGet m k = some e) :
    (dictPop m k).length < m.length := by
  have hm : (k, e) ∈ m := dictGet_mem m k e h
  unfold dictPop
  exact List.length_filter_lt_length_iff_exists.mpr ⟨(k, e), hm, by simp⟩

/-- The shutdown flag is preserved by every pool operation. -/
theorem applyOp_preserves_shutdown (q : SandboxPool) (op : PoolOp)
    (h : q.is_shutdown = true) : (applyOp q op).is_shutdown = true := by
  cases op with
  | get now sid => simp [applyOp, SandboxPool.get, h]
  | put now sid a => simp [applyOp, SandboxPool.put, h]
  | release now sid =>
    simp only [applyOp, SandboxPool.release]
    cases dictGet q.pool sid <;> simp [h]
  | remove sid =>
    simp only [applyOp, SandboxPool.remove]
    cases dictGet q.pool sid <;> simp [h]
  | cleanup now => simp [applyOp, SandboxPool.cleanup_idle, h]
  | shutdown => simp [applyOp, SandboxPool.shutdown]

theorem runOps_preserves_shutdown (ops : List PoolOp) :
    ∀ q : SandboxPool, q.is_shutdown = true →
      (runOps q ops).is_shutdown = true := by
  induction ops with
  | nil => intro q h; exact h
  | cons op rest ih =>
    intro q h
    simp only [runOps, List.foldl_cons]
    exact ih _ (applyOp_preserves_shutdown q op h)

/-- C9: once `shutdown` has run, after ANY further sequence of pool
operations every `get` returns `None` for every id (no handle can be
acquired from a closed pool), and every `put` leaves the registry
unchanged and closes the offered handle immediately. -/
theorem pool_shutdown_permanent (p : SandboxPool) (ops : List PoolOp) :
    (∀ (now : Nat) (sid : String),
        ((runOps p.shutdown.1 ops).get now sid).1 = none) ∧
    (∀ (now : Nat) (sid : String) (a : Nat),
        (runOps p.shutdown.1 ops).put now sid a =
          (runOps p.shutdown.1 ops, [a])) := by
  have hflag : (runOps p.shutdown.1 ops).is_shutdown = true :=
    runOps_preserves_shutdown ops _ (by simp [SandboxPool.shutdown])
  constructor
  · intro now sid
    simp [SandboxPool.get, hflag]
  · intro now sid a
    simp [SandboxPool.put, hflag]


theorem popMany_fst_mem (sids : List String) :
    ∀ (m : List (String × PoolEntry)) (se : String × PoolEntry),
      se ∈ (popMany m sids).1 → se ∈ m := by
  induction sids with
  | nil => intro m se h; exact h
  | cons sid rest ih =>
    intro m se h
    unfold popMany at h
    cases hg : dictGet m sid with
    | some e =>
      simp only [hg] at h
      exact mem_dictPop m sid se (ih _ se h)
    | none =>
      simp only [hg] at h
      exact ih m se h

theorem popMany_keeps (sids : List String) :
    ∀ (m : List (String × PoolEntry)) (se : String × PoolEntry),
      se ∈ m → (∀ k ∈ sids, se.1 ≠ k) → se ∈ (popMany m sids).1 := by
  induction sids with
  | nil => intro m se h _; exact h
  | cons sid rest ih =>
    intro m se hm hk
    unfold popMany
    cases hg : dictGet m sid with
    | some e =>
      simp only [hg]
      apply ih
      · unfold dictPop
        apply List.mem_filter.mpr
        refine ⟨hm, ?_⟩
        simpa using hk sid (by simp)
      · exact fun k hkr => hk k (by simp [hkr])
    | none =>
      simp only [hg]
      exact ih m se hm (fun k hkr => hk k (by simp [hkr]))

theorem key_inj (m : List (String × PoolEntry))
    (hnd : (m.map Prod.fst).Nodup) (se se' : String × PoolEntry)
    (h1 : se ∈ m) (h2 : se' ∈ m) (hk : se.1 = se'.1) : se = se' := by
  induction m with
  | nil => simp at h1
  | cons hd tl ih =>
    simp only [List.map_cons, List.nodup_cons] at hnd
    rcases List.mem_cons.mp h1 with e1 | m1 <;>
      rcases List.mem_cons.mp h2 with e2 | m2
    · rw [e1, e2]
    · exfalso
      apply hnd.1
      have hh : se'.1 = hd.1 := by rw [← hk, e1]
      rw [← hh]
      exact List.mem_map.mpr ⟨se', m2, rfl⟩
    · exfalso
      apply hnd.1
      have hh : se.1 = hd.1 := by rw [hk, e2]
      rw [← hh]
      exact List.mem_map.mpr ⟨se, m1, rfl⟩
    · exact ih hnd.2 m1 m2

theorem applyOp_nonneg (q : SandboxPool) (op : PoolOp)
    (h : ∀ se ∈ q.pool, 0 ≤ se.2.active_count) :
    ∀ se ∈ (applyOp q op).pool, 0 ≤ se.2.active_count := by
  intro se hse
  cases op with
  | get now sid =>
    simp only [applyOp, SandboxPool.get] at hse
    by_cases hs : q.is_shutdown
    · rw [if_pos hs] at hse; exact h se hse
    · rw [if_neg hs] at hse
      cases hg : dictGet q.pool sid with
      | none => simp only [hg] at hse; exact h se hse
      | some e =>
        simp only [hg] at hse
        rcases mem_dictSet _ _ _ _ hse with hm | heq
        · exact h se hm
        · have he := h (sid, e) (dictGet_mem _ _ _ hg)
          simp at he
          rw [heq]
          simp
          omega
  | put now sid a =>
    simp only [applyOp, SandboxPool.put] at hse
    by_cases hs : q.is_shutdown
    · rw [if_pos hs] at hse; exact h se hse
    · rw [if_neg hs] at hse
      simp only at hse
      -- the pool after the optional LRU eviction
      have hsub : ∀ x ∈ (if q.pool.length ≥ q.max_size then q.evict_lru
          else (q, [])).1.pool, x ∈ q.pool := by
        intro x hx
        by_cases hc : q.pool.length ≥ q.max_size
        · rw [if_pos hc] at hx
          unfold SandboxPool.evict_lru at hx
          cases hf : q.pool.foldl lruStep none with
          | none => simp only [hf] at hx; exact hx
          | some st =>
            simp only [hf] at hx
            cases hg : dictGet q.pool st.1 with
            | some e => simp only [hg] at hx; exact mem_dictPop _ _ _ hx
            | none => simp only [hg] at hx; exact hx
        · rw [if_neg hc] at hx; exact hx
      rcases mem_dictSet _ _ _ _ hse with hm | heq
      · exact h se (hsub se hm)
      · rw [heq]; simp
  | release now sid =>
    simp only [applyOp, SandboxPool.release] at hse
    cases hg : dictGet q.pool sid with
    | none => simp only [hg] at hse; exact h se hse
    | some e =>
      simp only [hg] at hse
      rcases mem_dictSet _ _ _ _ hse with hm | heq
      · exact h se hm
      · rw [heq]; simp
  | remove sid =>
    simp only [applyOp, SandboxPool.remove] at hse
    cases hg : dictGet q.pool sid with
    | none => simp only [hg] at hse; exact h se hse
    | some e =>
      simp only [hg] at hse
      exact h se (mem_dictPop _ _ _ hse)
  | cleanup now =>
    simp only [applyOp, SandboxPool.cleanup_idle] at hse
    exact h se (popMany_fst_mem _ _ _ hse)
  | shutdown =>
    simp only [applyOp, SandboxPool.shutdown] at hse
    simp at hse

theorem runOps_nonneg (ops : List PoolOp) :
    ∀ q : SandboxPool, (∀ se ∈ q.pool, 0 ≤ se.2.active_count) →
      ∀ se ∈ (runOps q ops).pool, 0 ≤ se.2.active_count := by
  induction ops with
  | nil => intro q h; exact h
  | cons op rest ih =>
    intro q h
    simp only [runOps, List.foldl_cons]
    exact ih _ (applyOp_nonneg q op h)

theorem cleanup_keeps_active (p : SandboxPool) (now : Nat)
    (hnd : (p.pool.map Prod.fst).Nodup) (se : String × PoolEntry)
    (hm : se ∈ p.pool) (hpos : 0 < se.2.active_count) :
    se ∈ (p.cleanup_idle now).1.pool := by
  unfold SandboxPool.cleanup_idle
  simp only
  apply popMany_keeps
  · exact hm
  · intro k hk hke
    rw [List.mem_map] at hk
    obtain ⟨x, hx, hxk⟩ := hk
    have hxm := List.mem_of_mem_filter hx
    have hxe := List.of_mem_filter hx
    have : x = se := key_inj p.pool hnd x se hxm hm (by rw [hxk, hke])
    rw [this] at hxe
    unfold idleEvictable at hxe
    simp at hxe
    omega

/-- C3: over every sequence of pool operations from a fresh pool no
entry's `active_count` is ever negative (`release` floors at zero, so a
release on an absent or zero-count entry is a no-op); an entry with a
positive `active_count` always survives the idle sweep; and in the
concrete scenario, "s1" acquired to count 2 survives a threshold-0 sweep,
then after two releases a later sweep evicts it. -/
theorem pool_reference_safety :
    (∀ (m t : Nat) (ops : List PoolOp) (se : String × PoolEntry),
        se ∈ (runOps (freshPool m t) ops).pool → 0 ≤ se.2.active_count) ∧
    (∀ (p : SandboxPool) (now : Nat),
        (p.pool.map Prod.fst).Nodup →
        ∀ se ∈ p.pool, 0 < se.2.active_count →
          se ∈ (p.cleanup_idle now).1.pool) ∧
    ((dictGet (runOps (freshPool 100 0)
        [.put 0 "s1" 7, .release 0 "s1", .get 1 "s1", .get 1 "s1"]).pool
        "s1").map (·.active_count) = some 2 ∧
     (runOps (freshPool 100 0)
        [.put 0 "s1" 7, .release 0 "s1", .get 1 "s1", .get 1 "s1",
         .cleanup 2]).pool ≠ [] ∧
     ((runOps (freshPool 100 0)
        [.put 0 "s1" 7, .release 0 "s1", .get 1 "s1", .get 1 "s1",
         .cleanup 2]).cleanup_idle 2).2.1 = [] ∧
     (dictGet (runOps (freshPool 100 0)
        [.put 0 "s1" 7, .release 0 "s1", .get 1 "s1", .get 1 "s1",
         .cleanup 2, .release 3 "s1", .release 3 "s1"]).pool
        "s1").map (·.active_count) = some 0 ∧
     ((runOps (freshPool 100 0)
        [.put 0 "s1" 7, .release 0 "s1", .get 1 "s1", .get 1 "s1",
         .cleanup 2, .release 3 "s1", .release 3 "s1"]).cleanup_idle 4).2.1 =
       ["s1"]) := by
  refine ⟨?_, ?_, ?_⟩
  · intro m t ops se hse
    exact runOps_nonneg ops (freshPool m t) (by intro se h; simp [freshPool] at h) se hse
  · intro p now hnd se hm hpos
    exact cleanup_keeps_active p now hnd se hm hpos
  · decide

/-- Witness for C3: the universally quantified parts applied at concrete
inputs. -/
theorem pool_reference_safety_witness :
    (0 : Int) ≤ ((("s1", ⟨7, 1, 2⟩) : String × PoolEntry)).2.active_count ∧
    (("s1", ⟨7, 1, 2⟩) : String × PoolEntry) ∈
      ((⟨[("s1", ⟨7, 1, 2⟩)], 100, 0, false⟩ : SandboxPool).cleanup_idle 2).1.pool := by
  constructor
  · exact pool_reference_safety.1 100 0 [.put 0 "s1" 7, .release 0 "s1",
      .get 1 "s1", .get 1 "s1"] ("s1", ⟨7, 1, 2⟩) (by decide)
  · exact pool_reference_safety.2.1 ⟨[("s1", ⟨7, 1, 2⟩)], 100, 0, false⟩ 2
      (by decide) ("s1", ⟨7, 1, 2⟩) (by decide) (by decide)


theorem lruFold_result (m : List (String × PoolEntry)) :
    ∀ (acc : Option (String × Nat)) (s : String) (t : Nat),
      m.foldl lruStep acc = some (s, t) →
      acc = some (s, t) ∨
        ∃ e, (s, e) ∈ m ∧ e.active_count = 0 ∧ e.last_used = t := by
  induction m with
  | nil => intro acc s t h; left; exact h
  | cons hd tl ih =>
    intro acc s t h
    simp only [List.foldl_cons] at h
    rcases ih _ s t h with hacc | ⟨e, hm, h0, hl⟩
    · unfold lruStep at hacc
      split at hacc
      next hz =>
        split at hacc
        next =>
          right
          simp only [Option.some.injEq, Prod.mk.injEq] at hacc
          refine ⟨hd.2, ?_, hz, hacc.2⟩
          rw [← hacc.1]
          simp
        next s0 t0 =>
          split at hacc
          · right
            simp only [Option.some.injEq, Prod.mk.injEq] at hacc
            refine ⟨hd.2, ?_, hz, hacc.2⟩
            rw [← hacc.1]
            simp
          · left; exact hacc
      next => left; exact hacc
    · right
      exact ⟨e, List.mem_cons_of_mem hd hm, h0, hl⟩

/-- C10: `put` on an id that already has a pool entry closes the old
handle and replaces the entry even when the old entry's `active_count` is
positive, and the replacement entry's `active_count` is 1 regardless of
the outstanding reference count. -/
theorem put_replaces_existing_entry (p : SandboxPool) (sid : String)
    (e : PoolEntry) (now : Nat) (a : Nat)
    (hshut : p.is_shutdown = false)
    (hmem : dictGet p.pool sid = some e)
    (hpos : 0 < e.active_count)
    (hnd : (p.pool.map Prod.fst).Nodup) :
    dictGet (p.put now sid a).1.pool sid = some ⟨a, now, 1⟩ ∧
    e.adapter ∈ (p.put now sid a).2 := by
  unfold SandboxPool.put
  rw [if_neg (by simp [hshut])]
  simp only
  by_cases hc : p.pool.length ≥ p.max_size
  · rw [if_pos hc]
    unfold SandboxPool.evict_lru
    cases hf : p.pool.foldl lruStep none with
    | none =>
      simp only
      rw [hmem]
      exact ⟨dictGet_dictSet_self _ _ _, by simp⟩
    | some pr =>
      obtain ⟨s0, t0⟩ := pr
      rcases lruFold_result p.pool none s0 t0 hf with hacc | ⟨e0, hm0, h00, hl0⟩
      · simp at hacc
      · have hne : sid ≠ s0 := by
          intro heq
          subst heq
          have := key_inj p.pool hnd (sid, e0) (sid, e)
            hm0 (dictGet_mem _ _ _ hmem) rfl
          have he : e0 = e := congrArg Prod.snd this
          rw [he] at h00
          omega
        simp only
        cases hg0 : dictGet p.pool s0 with
        | none =>
          simp only
          rw [hmem]
          exact ⟨dictGet_dictSet_self _ _ _, by simp⟩
        | some e1 =>
          simp only
          rw [dictGet_dictPop_ne p.pool s0 sid hne, hmem]
          exact ⟨dictGet_dictSet_self _ _ _, by simp⟩
  · rw [if_neg hc]
    simp only
    rw [hmem]
    exact ⟨dictGet_dictSet_self _ _ _, by simp⟩

/-- Witness for C10 at a concrete pool: id "s1" held with
`active_count = 2`; `put` replaces it with a count-1 entry for the new
handle and closes old handle 9. -/
theorem put_replaces_existing_entry_witness :
    dictGet ((⟨[("s1", ⟨9, 0, 2⟩)], 100, 3600, false⟩ : SandboxPool).put
        5 "s1" 42).1.pool "s1" = some ⟨42, 5, 1⟩ ∧
    9 ∈ ((⟨[("s1", ⟨9, 0, 2⟩)], 100, 3600, false⟩ : SandboxPool).put
        5 "s1" 42).2 := by
  exact put_replaces_existing_entry
    ⟨[("s1", ⟨9, 0, 2⟩)], 100, 3600, false⟩ "s1" ⟨9, 0, 2⟩ 5 42
    (by decide) (by decide) (by decide) (by decide)

/-- C6 (amended): `stop_sandbox` returns true exactly when a record row
with the given id exists — so it returns `false` for a nonexistent id but
`true` for an existing, already-stopped record (the UPDATE still matches
the row).  It performs no adapter close when the id holds no pool entry,
always leaves the pool without an entry for the id, and sets every
matching record to `stopped` with `last_active_at` refreshed. -/
theorem stop_sandbox_behaviour (st : MgrState) (sid : String) (now : Nat) :
    (stop_sandbox st sid now).1 = st.db.any (fun r => r.id == sid) ∧
    ((∀ se ∈ st.pool.pool, se.1 ≠ sid) →
       (stop_sandbox st sid now).2.closed = st.closed) ∧
    (∀ se ∈ (stop_sandbox st sid now).2.pool.pool, se.1 ≠ sid) ∧
    (∀ r ∈ (stop_sandbox st sid now).2.db, r.id = sid →
       r.status = "stopped" ∧ r.last_active_at = some now) := by
  refine ⟨?_, ?_, ?_, ?_⟩
  · simp only [stop_sandbox]
    by_cases hp : 0 < st.db.countP (fun r => r.id == sid)
    · rw [decide_eq_true hp]
      symm
      rw [List.any_eq_true]
      rw [List.countP_pos_iff] at hp
      exact hp
    · rw [decide_eq_false hp]
      symm
      rw [Bool.eq_false_iff, ne_eq, List.any_eq_true]
      rw [List.countP_pos_iff] at hp
      exact hp
  · intro hfree
    simp only [stop_sandbox, SandboxPool.remove]
    rw [dictGet_fresh st.pool.pool sid hfree]
    simp
  · intro se hse
    simp only [stop_sandbox, SandboxPool.remove] at hse
    cases hg : dictGet st.pool.pool sid with
    | none =>
      simp only [hg] at hse
      exact dictGet_none_forall st.pool.pool sid hg se hse
    | some e =>
      simp only [hg] at hse
      have := List.of_mem_filter hse
      simpa using this
  · intro r hr hid
    simp only [stop_sandbox] at hr
    rw [List.mem_map] at hr
    obtain ⟨r0, hr0, hfr⟩ := hr
    by_cases hc : (r0.id == sid) = true
    · rw [if_pos hc] at hfr
      rw [← hfr]
      exact ⟨rfl, rfl⟩
    · rw [if_neg hc] at hfr
      rw [← hfr] at hid
      exact absurd (by simp [hid]) hc

/-- Witness for C6: on the world whose only record is already `stopped`,
stopping the nonexistent id "zz" returns false and closes nothing. -/
theorem stop_sandbox_behaviour_witness :
    (stop_sandbox stStopped "zz" 5).1 = false ∧
    (stop_sandbox stStopped "zz" 5).2.closed = [] := by
  constructor
  · rw [(stop_sandbox_behaviour stStopped "zz" 5).1]
    decide
  · exact (stop_sandbox_behaviour stStopped "zz" 5).2.1 (by decide)

theorem popMany_fst (sids : List String) :
    ∀ m : List (String × PoolEntry),
      (popMany m sids).1 = m.filter (fun se => !(sids.contains se.1)) := by
  induction sids with
  | nil =>
    intro m
    simp [popMany, List.filter_true]
  | cons sid rest ih =>
    intro m
    unfold popMany
    cases hg : dictGet m sid with
    | some e =>
      simp only [hg]
      rw [ih (dictPop m sid)]
      unfold dictPop
      rw [List.filter_filter]
      apply List.filter_congr
      intro se hse
      rw [List.contains_cons]
      cases hk : se.1 == sid <;> cases hr : rest.contains se.1 <;>
        simp [hk, hr] <;> simpa using hk
    | none =>
      simp only [hg]
      rw [ih m]
      apply List.filter_congr
      intro se hse
      rw [List.contains_cons]
      have : (se.1 == sid) = false := by
        simpa using dictGet_none_forall m sid hg se hse
      rw [this]
      simp

/-- C4: with unique pool keys, `cleanup_idle_sandboxes` evicts exactly
the pool entries with zero `active_count` whose idle age exceeds the
threshold, returns their number, and rewrites exactly the corresponding
records to status `stopped` in the one batch update, leaving all other
records untouched. -/
theorem cleanup_idle_reconciliation (st : MgrState) (now : Nat)
    (hnd : (st.pool.pool.map Prod.fst).Nodup) :
    (cleanup_idle_sandboxes st now).1 =
      (st.pool.pool.filter
        (fun se => idleEvictable now st.pool.idle_timeout se.2)).length ∧
    (cleanup_idle_sandboxes st now).2.pool.pool =
      st.pool.pool.filter
        (fun se => !(idleEvictable now st.pool.idle_timeout se.2)) ∧
    (cleanup_idle_sandboxes st now).2.db = st.db.map (fun r =>
      if ((st.pool.pool.filter
            (fun se => idleEvictable now st.pool.idle_timeout se.2)).map
            Prod.fst).contains r.id
      then { r with status := "stopped" } else r) := by
  refine ⟨?_, ?_, ?_⟩
  · simp only [cleanup_idle_sandboxes, SandboxPool.cleanup_idle,
      List.length_map]
  · simp only [cleanup_idle_sandboxes, SandboxPool.cleanup_idle]
    rw [popMany_fst]
    apply List.filter_congr
    intro se hse
    cases hev : idleEvictable now st.pool.idle_timeout se.2 with
    | true =>
      have hmem : se.1 ∈ (st.pool.pool.filter
          (fun x => idleEvictable now st.pool.idle_timeout x.2)).map Prod.fst :=
        List.mem_map.mpr ⟨se, List.mem_filter.mpr ⟨hse, hev⟩, rfl⟩
      have hc : ((st.pool.pool.filter
          (fun x => idleEvictable now st.pool.idle_timeout x.2)).map
          Prod.fst).contains se.1 = true := List.elem_iff.mpr hmem
      rw [hc]
    | false =>
      have hnot : se.1 ∉ (st.pool.pool.filter
          (fun x => idleEvictable now st.pool.idle_timeout x.2)).map Prod.fst := by
        intro hin
        rw [List.mem_map] at hin
        obtain ⟨x, hx, hxk⟩ := hin
        have hxm := List.mem_of_mem_filter hx
        have hxe := List.of_mem_filter hx
        have hxx : x = se := key_inj st.pool.pool hnd x se hxm hse hxk
        rw [hxx] at hxe
        rw [hxe] at hev
        simp at hev
      have hc : ((st.pool.pool.filter
          (fun x => idleEvictable now st.pool.idle_timeout x.2)).map
          Prod.fst).contains se.1 = false := by
        simpa using hnot
      rw [hc]
  · simp only [cleanup_idle_sandboxes, SandboxPool.cleanup_idle]
    by_cases hE : (((st.pool.pool.filter
        (fun se => idleEvictable now st.pool.idle_timeout se.2)).map
        Prod.fst).isEmpty) = true
    · rw [if_pos hE]
      have hnil := List.isEmpty_iff.mp hE
      rw [hnil]
      simp
    · rw [if_neg hE]

/-- Witness for C4: three idle sandboxes — the sweep returns 3, the pool
empties, and all three records end `stopped`. -/
theorem cleanup_idle_reconciliation_witness :
    (cleanup_idle_sandboxes stIdle3 100).1 = 3 ∧
    (cleanup_idle_sandboxes stIdle3 100).2.pool.pool = [] ∧
    (cleanup_idle_sandboxes stIdle3 100).2.db.map (fun r => r.status) =
      ["stopped", "stopped", "stopped"] := by
  have h := cleanup_idle_reconciliation stIdle3 100 (by decide)
  refine ⟨?_, ?_, ?_⟩
  · rw [h.1]; decide
  · rw [h.2.1]; decide
  · rw [h.2.2]; decide

/-- C8 (amended): the transitions performed through `_update_status`
(`creating`, `running`, `failed`) and through `stop_sandbox` stamp
`last_active_at`; but the batch update of `cleanup_idle_sandboxes` writes
only `status` and leaves every record's `last_active_at` unchanged.
(`updated_at` lives in the ORM `TimestampMixin`, outside this
subsystem.) -/
theorem status_transitions_stamp_last_active :
    (∀ (db : List SandboxRecord) (sid s : String) (cid em : Option String)
        (now : Nat), ∀ r ∈ updateStatusDb db sid s cid em now,
          r.id = sid → r.last_active_at = some now) ∧
    (∀ (st : MgrState) (sid : String) (now : Nat),
        ∀ r ∈ (stop_sandbox st sid now).2.db,
          r.id = sid → r.last_active_at = some now) ∧
    (∀ (st : MgrState) (now : Nat),
        (cleanup_idle_sandboxes st now).2.db.map (fun r => r.last_active_at) =
          st.db.map (fun r => r.last_active_at)) := by
  refine ⟨?_, ?_, ?_⟩
  · intro db sid s cid em now r hr hid
    unfold updateStatusDb at hr
    rw [List.mem_map] at hr
    obtain ⟨r0, hr0, hfr⟩ := hr
    by_cases hc : (r0.id == sid) = true
    · rw [if_pos hc] at hfr
      rw [← hfr]
    · rw [if_neg hc] at hfr
      rw [← hfr] at hid
      exact absurd (by simp [hid]) hc
  · intro st sid now r hr hid
    simp only [stop_sandbox] at hr
    rw [List.mem_map] at hr
    obtain ⟨r0, hr0, hfr⟩ := hr
    by_cases hc : (r0.id == sid) = true
    · rw [if_pos hc] at hfr
      rw [← hfr]
    · rw [if_neg hc] at hfr
      rw [← hfr] at hid
      exact absurd (by simp [hid]) hc
  · intro st now
    simp only [cleanup_idle_sandboxes, SandboxPool.cleanup_idle]
    by_cases hE : (((st.pool.pool.filter
        (fun se => idleEvictable now st.pool.idle_timeout se.2)).map
        Prod.fst).isEmpty) = true
    · rw [if_pos hE]
    · rw [if_neg hE]
      rw [List.map_map]
      apply List.map_congr_left
      intro r hr
      by_cases hc : (((st.pool.pool.filter
          (fun se => idleEvictable now st.pool.idle_timeout se.2)).map
          Prod.fst).contains r.id) = true
      · simp only [Function.comp_apply, if_pos hc]
      · simp only [Function.comp_apply, if_neg hc]

/-- Witness for C8: concrete `creating` and `stop` transitions stamp
`last_active_at` to the transition time 9, and the concrete idle-sweep
batch leaves all three stamps unchanged. -/
theorem status_transitions_stamp_last_active_witness :
    ({ recR1 with status := "creating", last_active_at := some 9 } : SandboxRecord).last_active_at = some 9 ∧
    ({ recR1 with status := "stopped", last_active_at := some 9 } : SandboxRecord).last_active_at = some 9 ∧
    (cleanup_idle_sandboxes stIdle3 100).2.db.map
        (fun r => r.last_active_at) =
      stIdle3.db.map (fun r => r.last_active_at) :=
  ⟨status_transitions_stamp_last_active.1 [recR1] "r1" "creating" none none 9
      { recR1 with status := "creating", last_active_at := some 9 }
      (by decide) (by decide),
   status_transitions_stamp_last_active.2.1 stMiss "r1" 9
      { recR1 with status := "stopped", last_active_at := some 9 }
      (by decide) (by decide),
   status_transitions_stamp_last_active.2.2 stIdle3 100⟩

theorem findByUser_updateStatusDb (db : List SandboxRecord) (sid s : String)
    (cid em : Option String) (now : Nat) (uid : String) :
    findByUser (updateStatusDb db sid s cid em now) uid =
      (findByUser db uid).map (fun r =>
        if r.id == sid then
          { r with
            status := s
            last_active_at := some now
            container_id := if cid.isSome then cid else r.container_id
            error_message :=
              if em.isSome then em
              else if s == "running" then none
              else r.error_message }
        else r) := by
  unfold findByUser updateStatusDb
  rw [List.find?_map]
  congr 1
  congr 1
  funext r
  simp only [Function.comp_apply]
  by_cases h : (r.id == sid) = true
  · rw [if_pos h]
  · rw [if_neg h]

theorem pool_get_miss (p : SandboxPool) (now : Nat) (sid : String)
    (h1 : p.is_shutdown = false) (h2 : dictGet p.pool sid = none) :
    p.get now sid = (none, p) := by
  unfold SandboxPool.get
  rw [if_neg (by simp [h1]), h2]

theorem ensure_miss_unfold (env : AdapterEnv) (fid : String) (st : MgrState)
    (uid : String) (now : Nat) (r : SandboxRecord)
    (hfind : findByUser st.db uid = some r)
    (hshut : st.pool.is_shutdown = false)
    (hmiss : dictGet st.pool.pool r.id = none) :
    ensure_sandbox_running env fid st uid now = startSandbox env st r.id now := by
  unfold ensure_sandbox_running create_sandbox_record
  rw [hfind]
  simp only
  rw [pool_get_miss st.pool now r.id hshut hmiss]

theorem startSandbox_error (live : Nat → Bool) (msg : String) (st : MgrState)
    (rid : String) (now : Nat) :
    startSandbox ⟨live, .error msg⟩ st rid now =
      (.error (.serviceUnavailable ("Failed to start sandbox: " ++ msg)),
       { st with db := updateStatusDb (updateStatusDb st.db rid "creating" none none now) rid "failed" none (some msg) now }) := rfl

theorem startSandbox_ok (live : Nat → Bool) (a : Nat) (st : MgrState)
    (rid : String) (now : Nat) :
    startSandbox ⟨live, .ok a⟩ st rid now =
      (.ok a,
       { db := updateStatusDb (updateStatusDb st.db rid "creating" none none now) rid "running" none none now,
         pool := (st.pool.put now rid a).1,
         closed := st.closed ++ (st.pool.put now rid a).2,
         started := st.started ++ [a] }) := rfl

theorem updateStatusDb_row_some (db : List SandboxRecord) (sid s : String)
    (cid : Option String) (msg : String) (now : Nat) :
    ∀ r ∈ updateStatusDb db sid s cid (some msg) now, r.id = sid →
      r.status = s ∧ r.error_message = some msg ∧
      r.last_active_at = some now := by
  intro r hr hid
  unfold updateStatusDb at hr
  rw [List.mem_map] at hr
  obtain ⟨r0, hr0, hfr⟩ := hr
  by_cases hc : (r0.id == sid) = true
  · rw [if_pos hc] at hfr
    rw [← hfr]
    exact ⟨rfl, rfl, rfl⟩
  · rw [if_neg hc] at hfr
    rw [← hfr] at hid
    exact absurd (by simp [hid]) hc

theorem updateStatusDb_row_running (db : List SandboxRecord) (sid : String)
    (cid : Option String) (now : Nat) :
    ∀ r ∈ updateStatusDb db sid "running" cid none now, r.id = sid →
      r.status = "running" ∧ r.error_message = none ∧
      r.last_active_at = some now := by
  intro r hr hid
  unfold updateStatusDb at hr
  rw [List.mem_map] at hr
  obtain ⟨r0, hr0, hfr⟩ := hr
  by_cases hc : (r0.id == sid) = true
  · rw [if_pos hc] at hfr
    rw [← hfr]
    exact ⟨rfl, rfl, rfl⟩
  · rw [if_neg hc] at hfr
    rw [← hfr] at hid
    exact absurd (by simp [hid]) hc

/-- C5: when the adapter start throws during creation, the record is set
to `failed` with the exception message in `error_message` and the caller
receives the typed 503 service-unavailable error; a later
`ensure_sandbox_running` for the same user is not blocked — it performs a
fresh start call, succeeds, sets the record to `running` and clears
`error_message`. -/
theorem ensure_running_failure_then_retry
    (st : MgrState) (uid : String) (r : SandboxRecord)
    (msg fid fid2 : String) (now now2 : Nat)
    (live live2 : Nat → Bool) (a2 : Nat)
    (hfind : findByUser st.db uid = some r)
    (hshut : st.pool.is_shutdown = false)
    (hmiss : dictGet st.pool.pool r.id = none) :
    (ensure_sandbox_running ⟨live, .error msg⟩ fid st uid now).1 =
      .error (.serviceUnavailable ("Failed to start sandbox: " ++ msg)) ∧
    (∀ r' ∈ (ensure_sandbox_running ⟨live, .error msg⟩ fid st uid now).2.db,
        r'.id = r.id → r'.status = "failed" ∧ r'.error_message = some msg) ∧
    (ensure_sandbox_running ⟨live2, .ok a2⟩ fid2
        (ensure_sandbox_running ⟨live, .error msg⟩ fid st uid now).2
        uid now2).1 = .ok a2 ∧
    (ensure_sandbox_running ⟨live2, .ok a2⟩ fid2
        (ensure_sandbox_running ⟨live, .error msg⟩ fid st uid now).2
        uid now2).2.started = st.started ++ [a2] ∧
    (∀ r' ∈ (ensure_sandbox_running ⟨live2, .ok a2⟩ fid2
        (ensure_sandbox_running ⟨live, .error msg⟩ fid st uid now).2
        uid now2).2.db,
        r'.id = r.id → r'.status = "running" ∧ r'.error_message = none) := by
  have h1 : ensure_sandbox_running ⟨live, .error msg⟩ fid st uid now =
      (.error (.serviceUnavailable ("Failed to start sandbox: " ++ msg)),
       { st with db := updateStatusDb (updateStatusDb st.db r.id "creating" none none now) r.id "failed" none (some msg) now }) := by
    rw [ensure_miss_unfold _ fid st uid now r hfind hshut hmiss,
        startSandbox_error]
  have hfind2 : findByUser (updateStatusDb (updateStatusDb st.db r.id "creating" none none now) r.id "failed" none (some msg) now) uid =
      some { r with status := "failed", last_active_at := some now, error_message := some msg } := by
    rw [findByUser_updateStatusDb, findByUser_updateStatusDb, hfind]
    simp
  have h2 : ensure_sandbox_running ⟨live2, .ok a2⟩ fid2
      (ensure_sandbox_running ⟨live, .error msg⟩ fid st uid now).2 uid now2 =
      startSandbox ⟨live2, .ok a2⟩
        (ensure_sandbox_running ⟨live, .error msg⟩ fid st uid now).2
        r.id now2 := by
    rw [h1]
    exact ensure_miss_unfold _ fid2 _ uid now2
      { r with status := "failed", last_active_at := some now, error_message := some msg }
      hfind2 hshut hmiss
  refine ⟨?_, ?_, ?_, ?_, ?_⟩
  · rw [h1]
  · rw [h1]
    intro r' hr' hid
    exact ⟨(updateStatusDb_row_some _ r.id "failed" none msg now r' hr' hid).1,
           (updateStatusDb_row_some _ r.id "failed" none msg now r' hr' hid).2.1⟩
  · rw [h2, h1, startSandbox_ok]
  · rw [h2, h1, startSandbox_ok]
  · rw [h2, h1, startSandbox_ok]
    intro r' hr' hid
    exact ⟨(updateStatusDb_row_running _ r.id none now2 r' hr' hid).1,
           (updateStatusDb_row_running _ r.id none now2 r' hr' hid).2.1⟩

/-- Witness for C5: from the concrete pending-record world, a failing
start yields the typed 503, and the retry with a working adapter returns
handle 42 and logs exactly one new start call. -/
theorem ensure_running_failure_then_retry_witness :
    (ensure_sandbox_running ⟨fun _ => true, .error "boom"⟩ "f" stMiss
        "u1" 1).1 =
      .error (.serviceUnavailable ("Failed to start sandbox: " ++ "boom")) ∧
    (ensure_sandbox_running ⟨fun _ => true, .ok 42⟩ "g"
        (ensure_sandbox_running ⟨fun _ => true, .error "boom"⟩ "f" stMiss
          "u1" 1).2 "u1" 2).1 = .ok 42 ∧
    (ensure_sandbox_running ⟨fun _ => true, .ok 42⟩ "g"
        (ensure_sandbox_running ⟨fun _ => true, .error "boom"⟩ "f" stMiss
          "u1" 1).2 "u1" 2).2.started = stMiss.started ++ [42] := by
  have h := ensure_running_failure_then_retry stMiss "u1" recR1 "boom" "f"
    "g" 1 2 (fun _ => true) (fun _ => true) 42 (by decide) (by decide)
    (by decide)
  exact ⟨h.1, h.2.2.1, h.2.2.2.1⟩

theorem put_no_evict_fresh (p : SandboxPool) (now : Nat) (sid : String)
    (a : Nat) (hshut : p.is_shutdown = false)
    (hlen : p.pool.length < p.max_size)
    (hget : dictGet p.pool sid = none) :
    p.put now sid a = ({ p with pool := dictSet p.pool sid ⟨a, now, 1⟩ }, []) := by
  unfold SandboxPool.put
  rw [if_neg (by simp [hshut])]
  simp only
  rw [if_neg (by omega), hget]
  rfl

theorem ensure_hit_dead_unfold (env : AdapterEnv) (fid : String)
    (st : MgrState) (uid : String) (now : Nat) (r : SandboxRecord)
    (e : PoolEntry) (hfind : findByUser st.db uid = some r)
    (hshut : st.pool.is_shutdown = false)
    (hpool : dictGet st.pool.pool r.id = some e)
    (hdead : env.is_started e.adapter = false) :
    ensure_sandbox_running env fid st uid now =
      startSandbox env
        { st with
            pool := { st.pool with pool := dictPop (dictSet st.pool.pool r.id { e with last_used := now, active_count := e.active_count + 1 }) r.id },
            closed := st.closed ++ [e.adapter] } r.id now := by
  unfold ensure_sandbox_running create_sandbox_record
  rw [hfind]
  simp only
  unfold SandboxPool.get
  rw [if_neg (by simp [hshut]), hpool]
  simp only [hdead]
  rw [if_neg Bool.false_ne_true]
  unfold SandboxPool.remove
  rw [dictGet_dictSet_self]

/-- C7: when the pool returns a handle that fails the liveness check,
`ensure_sandbox_running` closes the stale handle exactly once, performs a
fresh adapter start, registers the new handle with `active_count = 1`,
and returns it successfully — the stale handle is never surfaced as an
error. -/
theorem ensure_running_stale_heals (st : MgrState) (uid : String)
    (r : SandboxRecord) (e : PoolEntry) (fid : String) (now : Nat)
    (live : Nat → Bool) (a2 : Nat)
    (hfind : findByUser st.db uid = some r)
    (hshut : st.pool.is_shutdown = false)
    (hpool : dictGet st.pool.pool r.id = some e)
    (hdead : live e.adapter = false)
    (hcap : st.pool.pool.length ≤ st.pool.max_size) :
    (ensure_sandbox_running ⟨live, .ok a2⟩ fid st uid now).1 = .ok a2 ∧
    (ensure_sandbox_running ⟨live, .ok a2⟩ fid st uid now).2.closed =
      st.closed ++ [e.adapter] ∧
    (ensure_sandbox_running ⟨live, .ok a2⟩ fid st uid now).2.started =
      st.started ++ [a2] ∧
    dictGet (ensure_sandbox_running ⟨live, .ok a2⟩ fid st uid
        now).2.pool.pool r.id = some ⟨a2, now, 1⟩ := by
  have hbump : (dictSet st.pool.pool r.id { e with last_used := now, active_count := e.active_count + 1 }).length = st.pool.pool.length :=
    dictSet_length_of_mem _ _ _ (dictGet_any _ _ _ hpool)
  have hlt : (dictPop (dictSet st.pool.pool r.id { e with last_used := now, active_count := e.active_count + 1 }) r.id).length < st.pool.pool.length := by
    rw [← hbump]
    exact dictPop_length_lt _ _ _ (dictGet_dictSet_self _ _ _)
  have hput := put_no_evict_fresh
    { st.pool with pool := dictPop (dictSet st.pool.pool r.id { e with last_used := now, active_count := e.active_count + 1 }) r.id }
    now r.id a2 (by simpa using hshut) (by simp only; omega)
    (dictGet_dictPop_self _ _)
  rw [ensure_hit_dead_unfold ⟨live, .ok a2⟩ fid st uid now r e hfind hshut
      hpool hdead, startSandbox_ok]
  refine ⟨rfl, ?_, rfl, ?_⟩
  · simp only [hput]
    simp
  · simp only [hput]
    exact dictGet_dictSet_self _ _ _

/-- Witness for C7: concrete stale handle 9 for "r1" — the run returns
the fresh handle 43, closes 9 exactly once, and re-registers "r1" with
`active_count = 1`. -/
theorem ensure_running_stale_heals_witness :
    (ensure_sandbox_running ⟨fun a => a != 9, .ok 43⟩ "f" stStale
        "u1" 1).1 = .ok 43 ∧
    (ensure_sandbox_running ⟨fun a => a != 9, .ok 43⟩ "f" stStale
        "u1" 1).2.closed = stStale.closed ++ [9] ∧
    (ensure_sandbox_running ⟨fun a => a != 9, .ok 43⟩ "f" stStale
        "u1" 1).2.started = stStale.started ++ [43] ∧
    dictGet (ensure_sandbox_running ⟨fun a => a != 9, .ok 43⟩ "f" stStale
        "u1" 1).2.pool.pool "r1" = some ⟨43, 1, 1⟩ :=
  ensure_running_stale_heals stStale "u1" recR1 ⟨9, 0, 1⟩ "f" 1
    (fun a => a != 9) 43 (by decide) (by decide) (by decide) (by decide)
    (by decide)

theorem put_release_fresh (p : SandboxPool) (t : Nat) (sid : String)
    (a : Nat) (hshut : p.is_shutdown = false)
    (hlen : p.pool.length < p.max_size)
    (hfresh : ∀ se ∈ p.pool, se.1 ≠ sid) :
    ((p.put t sid a).1.release t sid =
        { p with pool := p.pool ++ [(sid, ⟨a, t, 0⟩)] }) ∧
    (p.put t sid a).2 = [] := by
  have hget : dictGet p.pool sid = none := dictGet_fresh p.pool sid hfresh
  have hput := put_no_evict_fresh p t sid a hshut hlen hget
  rw [hput]
  constructor
  · simp only
    unfold SandboxPool.release
    simp only
    rw [dictSet_fresh p.pool sid _ hfresh]
    rw [dictGet_append_fresh p.pool sid _ hfresh]
    simp only
    rw [dictSet_append_replace p.pool sid _ _ hfresh]
    rfl
  · rfl

theorem registerAll_under_capacity (regs : List (Nat × String × Nat)) :
    ∀ p : SandboxPool, p.is_shutdown = false →
      p.pool.length + regs.length ≤ p.max_size →
      (∀ se ∈ p.pool, ∀ rg ∈ regs, se.1 ≠ rg.2.1) →
      (regs.map (fun rg => rg.2.1)).Nodup →
      registerAll p regs = ({ p with pool := p.pool ++ regs.map entry0 }, []) := by
  induction regs with
  | nil =>
    intro p h1 h2 h3 h4
    simp [registerAll]
  | cons rg rest ih =>
    intro p h1 h2 h3 h4
    unfold registerAll
    dsimp only
    have hfr := put_release_fresh p rg.1 rg.2.1 rg.2.2 h1
      (by simp at h2; omega)
      (fun se hse => h3 se hse rg (by simp))
    rw [hfr.1, hfr.2]
    have hih := ih { p with pool := p.pool ++ [(rg.2.1, ⟨rg.2.2, rg.1, 0⟩)] }
      h1
      (by simp at h2 ⊢; omega)
      (by
        intro se hse rg2 hrg2
        rcases List.mem_append.mp hse with hl | hr
        · exact h3 se hl rg2 (by simp [hrg2])
        · rw [List.mem_singleton] at hr
          subst hr
          simp only [List.map_cons, List.nodup_cons] at h4
          intro hcon
          exact h4.1 (by rw [show rg.2.1 = rg2.2.1 from hcon]; exact List.mem_map.mpr ⟨rg2, hrg2, rfl⟩))
      (by simp only [List.map_cons, List.nodup_cons] at h4; exact h4.2)
    rw [hih]
    simp [entry0, List.append_assoc]

theorem registerAll_snoc (l1 : List (Nat × String × Nat))
    (x : Nat × String × Nat) :
    ∀ p : SandboxPool,
      registerAll p (l1 ++ [x]) =
        (((registerAll p l1).1.put x.1 x.2.1 x.2.2).1.release x.1 x.2.1,
         (registerAll p l1).2 ++
           ((registerAll p l1).1.put x.1 x.2.1 x.2.2).2) := by
  induction l1 with
  | nil => intro p; simp [registerAll]
  | cons rg rest ih =>
    intro p
    simp only [List.cons_append]
    unfold registerAll
    dsimp only
    rw [ih]
    simp [List.append_assoc]

theorem lruFold_keep (l : List (String × PoolEntry)) :
    ∀ (s : String) (t : Nat), (∀ se ∈ l, ¬ se.2.last_used < t) →
      l.foldl lruStep (some (s, t)) = some (s, t) := by
  induction l with
  | nil => intro s t _; rfl
  | cons hd tl ih =>
    intro s t h
    simp only [List.foldl_cons]
    have hstep : lruStep (some (s, t)) hd = some (s, t) := by
      unfold lruStep
      by_cases hz : hd.2.active_count = 0
      · rw [if_pos hz]
        simp only
        rw [if_neg (h hd (by simp))]
      · rw [if_neg hz]
    rw [hstep]
    exact ih s t (fun se hse => h se (by simp [hse]))

theorem lruFold_none (l : List (String × PoolEntry)) :
    (∀ se ∈ l, se.2.active_count ≠ 0) →
      l.foldl lruStep none = none := by
  induction l with
  | nil => intro _; rfl
  | cons hd tl ih =>
    intro h
    simp only [List.foldl_cons]
    have hstep : lruStep none hd = none := by
      unfold lruStep
      rw [if_neg (h hd (by simp))]
    rw [hstep]
    exact ih (fun se hse => h se (by simp [hse]))

/-- C2: registering `max_size + 1` distinct unreferenced ids (put
followed by release) in strictly increasing `last_used` order leaves the
pool at exactly `max_size` entries and evicts (closing its adapter)
precisely the id with the smallest `last_used`; and when no
zero-`active_count` entry is eligible for eviction, `put` still inserts
the new entry rather than blocking or erroring. -/
theorem pool_capacity_lru
    (first lst : Nat × String × Nat) (rest : List (Nat × String × Nat))
    (m timeout : Nat) (hm : (first :: rest).length = m)
    (hnodup : (((first :: rest) ++ [lst]).map (fun rg => rg.2.1)).Nodup)
    (hsorted : ((first :: rest) ++ [lst]).Pairwise (fun x y => x.1 < y.1)) :
    ((registerAll (freshPool m timeout) ((first :: rest) ++ [lst])).1.pool =
      (rest ++ [lst]).map entry0 ∧
     (registerAll (freshPool m timeout) ((first :: rest) ++ [lst])).2 =
      [first.2.2] ∧
     (registerAll (freshPool m timeout)
        ((first :: rest) ++ [lst])).1.pool.length = m) ∧
    (∀ (p : SandboxPool) (now : Nat) (sid : String) (a : Nat),
        p.is_shutdown = false →
        (∀ se ∈ p.pool, se.2.active_count ≠ 0) →
        (∀ se ∈ p.pool, se.1 ≠ sid) →
        (p.put now sid a).1.pool = p.pool ++ [(sid, ⟨a, now, 1⟩)] ∧
        (p.put now sid a).2 = []) := by
  constructor
  · -- freshness facts from the Nodup hypothesis
    have hmlen : rest.length + 1 = m := by simpa using hm
    have hnd' := hnodup
    rw [List.map_append, List.nodup_append] at hnd'
    obtain ⟨hnd1, _, hdisj⟩ := hnd'
    have hnd1c := hnd1
    rw [List.map_cons] at hnd1c
    have hndc := List.nodup_cons.mp hnd1c
    have hF1 : ∀ se ∈ rest.map entry0, se.1 ≠ first.2.1 := by
      intro se hse
      rw [List.mem_map] at hse
      obtain ⟨rg, hrg, hrgse⟩ := hse
      rw [← hrgse]
      unfold entry0
      intro hc
      exact hndc.1 (by rw [← hc]; exact List.mem_map.mpr ⟨rg, hrg, rfl⟩)
    have hlstfresh : ∀ rg ∈ first :: rest, rg.2.1 ≠ lst.2.1 := by
      intro rg hrg hc
      have : rg.2.1 ∈ ((first :: rest).map (fun x => x.2.1)) :=
        List.mem_map.mpr ⟨rg, hrg, rfl⟩
      have := hdisj this
      simp at this
      exact this hc
    have hF2 : ∀ se ∈ rest.map entry0, se.1 ≠ lst.2.1 := by
      intro se hse
      rw [List.mem_map] at hse
      obtain ⟨rg, hrg, hrgse⟩ := hse
      rw [← hrgse]
      exact hlstfresh rg (by simp [hrg])
    -- the first m registrations fill the pool without any eviction
    have hA : registerAll (freshPool m timeout) (first :: rest) =
        (⟨(first :: rest).map entry0, m, timeout, false⟩, []) := by
      rw [registerAll_under_capacity (first :: rest) (freshPool m timeout)
        rfl (by simp [freshPool]; omega) (by simp [freshPool])
        (by simpa using hnd1)]
      rfl
    -- the LRU scan selects the first-registered id
    have hfold : ((first :: rest).map entry0).foldl lruStep none =
        some (first.2.1, first.1) := by
      rw [List.map_cons, List.foldl_cons]
      have h1 : lruStep none (entry0 first) = some (first.2.1, first.1) := by
        unfold lruStep entry0
        rw [if_pos rfl]
      rw [h1]
      apply lruFold_keep
      intro se hse
      rw [List.mem_map] at hse
      obtain ⟨rg, hrg, hrgse⟩ := hse
      rw [← hrgse]
      unfold entry0
      simp only
      rw [List.cons_append] at hsorted
      have := (List.pairwise_cons.mp hsorted).1 rg
        (List.mem_append.mpr (Or.inl hrg))
      omega
    -- eviction pops the first entry and closes its adapter
    have hevict : (SandboxPool.mk ((first :: rest).map entry0) m timeout
        false).evict_lru =
        (⟨rest.map entry0, m, timeout, false⟩, [first.2.2]) := by
      unfold SandboxPool.evict_lru
      dsimp only
      rw [hfold]
      rw [List.map_cons]
      simp only [entry0]
      rw [dictGet_cons_self]
      rw [dictPop_cons_self _ _ _ hF1]
    -- the capacity-triggering put
    have hput : (SandboxPool.mk ((first :: rest).map entry0) m timeout
        false).put lst.1 lst.2.1 lst.2.2 =
        (⟨rest.map entry0 ++ [(lst.2.1, ⟨lst.2.2, lst.1, 1⟩)], m, timeout,
          false⟩, [first.2.2]) := by
      unfold SandboxPool.put
      rw [if_neg (by simp)]
      dsimp only
      rw [if_pos (by simp; omega)]
      rw [hevict]
      dsimp only
      rw [dictGet_fresh _ _ hF2]
      rw [dictSet_fresh _ _ _ hF2]
      rfl
    -- the final release brings the fresh entry to zero references
    have hrel : (SandboxPool.mk (rest.map entry0 ++
        [(lst.2.1, ⟨lst.2.2, lst.1, 1⟩)]) m timeout false).release lst.1
        lst.2.1 =
        ⟨(rest ++ [lst]).map entry0, m, timeout, false⟩ := by
      unfold SandboxPool.release
      dsimp only
      rw [dictGet_append_fresh _ _ _ hF2]
      dsimp only
      rw [dictSet_append_replace _ _ _ _ hF2]
      rw [List.map_append]
      rfl
    have hmain := registerAll_snoc (first :: rest) lst
      (freshPool m timeout)
    rw [hA] at hmain
    dsimp only at hmain
    rw [hput] at hmain
    dsimp only at hmain
    rw [hrel] at hmain
    rw [hmain]
    refine ⟨rfl, rfl, ?_⟩
    dsimp only
    rw [List.length_map, List.length_append]
    simp
    omega
  · intro p now sid a hshut hactive hfresh
    have hget : dictGet p.pool sid = none := dictGet_fresh p.pool sid hfresh
    unfold SandboxPool.put
    rw [if_neg (by simp [hshut])]
    dsimp only
    by_cases hc : p.pool.length ≥ p.max_size
    · rw [if_pos hc]
      unfold SandboxPool.evict_lru
      rw [lruFold_none p.pool hactive]
      dsimp only
      rw [hget, dictSet_fresh _ _ _ hfresh]
      exact ⟨rfl, rfl⟩
    · rw [if_neg hc]
      dsimp only
      rw [hget, dictSet_fresh _ _ _ hfresh]
      exact ⟨rfl, rfl⟩

/-- Witness for C2: `max_size = 2`, registering "a","b","c" at times
1 < 2 < 3 — the pool ends at exactly ["b", "c"], adapter 10 (the smallest
`last_used`, id "a") is the one closed; and a `put` into a full pool whose
only entry is referenced still inserts. -/
theorem pool_capacity_lru_witness :
    ((registerAll (freshPool 2 3600)
        [(1, "a", 10), (2, "b", 11), (3, "c", 12)]).1.pool =
      [("b", ⟨11, 2, 0⟩), ("c", ⟨12, 3, 0⟩)] ∧
     (registerAll (freshPool 2 3600)
        [(1, "a", 10), (2, "b", 11), (3, "c", 12)]).2 = [10] ∧
     (registerAll (freshPool 2 3600)
        [(1, "a", 10), (2, "b", 11), (3, "c", 12)]).1.pool.length = 2) ∧
    ((⟨[("x", ⟨9, 0, 1⟩)], 1, 0, false⟩ : SandboxPool).put 5 "y" 8).1.pool =
      [("x", ⟨9, 0, 1⟩), ("y", ⟨8, 5, 1⟩)] := by
  have h := pool_capacity_lru (1, "a", 10) (3, "c", 12) [(2, "b", 11)] 2
    3600 (by decide) (by decide) (by decide)
  refine ⟨⟨h.1.1, h.1.2.1, h.1.2.2⟩, ?_⟩
  exact (h.2 ⟨[("x", ⟨9, 0, 1⟩)], 1, 0, false⟩ 5 "y" 8 (by decide)
    (by decide) (by decide)).1

end JoySafeter
